import Mathlib

/-!
Verification of the INE municipal statistics aggregation service (`main.py`).

The source is shallowly embedded: Python strings are modelled as lists of
Unicode codepoints (`List Nat`); the remote statistics service is modelled as
oracles (functions from request parameters to `Except`-valued responses); the
global mutable cache is modelled by explicit state passing; `time.time()` is an
explicit `now : Nat` parameter.  Library behaviour (`str.lower`,
`unicodedata.normalize("NFD", ·)`, `unicodedata.category`) is modelled over the
character repertoire the code's Spanish-language domain exercises: ASCII plus
the precomposed Spanish letters and the combining diacritical marks block; every
other codepoint is left fixed, exactly as the regular expressions of the source
treat it.
-/

set_option autoImplicit false
set_option maxRecDepth 100000

namespace INE

/-- Codepoints of a literal string, the bridge between readable literals and
the `List Nat` encoding used by the embedding. -/
def litU (s : String) : List Nat := s.data.map Char.toNat

/-! ### Character-level model of the Python library functions -/

/-- Model of `str.lower` on one codepoint: ASCII `A`-`Z` plus the precomposed
Spanish uppercase letters map to their lowercase forms; everything else is
fixed. -/
def lowerChar (n : Nat) : Nat :=
  if 65 ≤ n ∧ n ≤ 90 then n + 32
  else if n = 193 then 225      -- Á → á
  else if n = 201 then 233      -- É → é
  else if n = 205 then 237      -- Í → í
  else if n = 211 then 243      -- Ó → ó
  else if n = 218 then 250      -- Ú → ú
  else if n = 220 then 252      -- Ü → ü
  else if n = 209 then 241      -- Ñ → ñ
  else n

/-- Model of `unicodedata.normalize("NFD", ·)` on one codepoint: the
precomposed Spanish letters decompose into base letter plus combining mark;
everything else is already decomposed. -/
def nfdChar (n : Nat) : List Nat :=
  if n = 225 then [97, 769]          -- á → a + U+0301
  else if n = 233 then [101, 769]    -- é
  else if n = 237 then [105, 769]    -- í
  else if n = 243 then [111, 769]    -- ó
  else if n = 250 then [117, 769]    -- ú
  else if n = 252 then [117, 776]    -- ü → u + U+0308
  else if n = 241 then [110, 771]    -- ñ → n + U+0303
  else if n = 193 then [65, 769]     -- Á
  else if n = 201 then [69, 769]     -- É
  else if n = 205 then [73, 769]     -- Í
  else if n = 211 then [79, 769]     -- Ó
  else if n = 218 then [85, 769]     -- Ú
  else if n = 220 then [85, 776]     -- Ü
  else if n = 209 then [78, 771]     -- Ñ
  else [n]

/-- Model of `unicodedata.category(c) == "Mn"`: the combining diacritical
marks block U+0300–U+036F. -/
def esMarca (n : Nat) : Bool := decide (768 ≤ n ∧ n ≤ 879)

/-- Model of the whitespace recognised by `str.strip` and the regex `\s`
(the ASCII whitespace characters). -/
def esEspacio (n : Nat) : Bool :=
  n == 32 || n == 9 || n == 10 || n == 11 || n == 12 || n == 13

/-- The character class `[a-z0-9áéíóúüñ\s-]` of `coincide_municipio`'s
regular expressions. -/
def enClase (n : Nat) : Bool :=
  decide (97 ≤ n ∧ n ≤ 122) || decide (48 ≤ n ∧ n ≤ 57) ||
  n == 225 || n == 233 || n == 237 || n == 243 || n == 250 || n == 252 ||
  n == 241 || esEspacio n || n == 45

/-- The non-mark part of a codepoint's NFD decomposition (the base letter of
an accented character, the character itself otherwise). -/
def baseChar (n : Nat) : Nat :=
  (((nfdChar n).filter (fun c => !(esMarca c))).headD n)

/-! ### String-level operations of the source -/

/-- Model of `str.lower`. -/
def lowerL (l : List Nat) : List Nat := l.map lowerChar

/-- Model of `str.strip`: drop whitespace from both ends. -/
def recortar (l : List Nat) : List Nat :=
  ((l.dropWhile esEspacio).reverse.dropWhile esEspacio).reverse

/-- Model of `unicodedata.normalize("NFD", ·)` on a whole string. -/
def nfdL : List Nat → List Nat
  | [] => []
  | c :: resto => nfdChar c ++ nfdL resto

/-- `normalizar` (src/main.py lines 27-35): lowercase, strip, then remove the
combining marks of the NFD decomposition. -/
def normalizar (texto : List Nat) : List Nat :=
  if texto.isEmpty then []
  else (nfdL (recortar (lowerL texto))).filter (fun c => !(esMarca c))

/-- The substitution `re.sub(r"[^a-z0-9áéíóúüñ\s-]", " ", ·)` of
`coincide_municipio`. -/
def limpiar (l : List Nat) : List Nat :=
  l.map (fun n => if enClase n then n else 32)

/-- Worker for `colapsar`; the flag records whether the previous character was
whitespace (i.e. whether we are inside a run already replaced). -/
def colapsarAux : List Nat → Bool → List Nat
  | [], _ => []
  | c :: resto, enEspacio =>
    if esEspacio c then
      if enEspacio then colapsarAux resto true
      else 32 :: colapsarAux resto true
    else c :: colapsarAux resto false

/-- The substitution `re.sub(r"\s+", " ", ·)` of `coincide_municipio`:
collapse each maximal whitespace run to a single space. -/
def colapsar (l : List Nat) : List Nat := colapsarAux l false

/-- The processed form both arguments of `coincide_municipio` go through:
normalized, character-class-cleaned, whitespace-collapsed, trimmed. -/
def procesar (texto : List Nat) : List Nat :=
  recortar (colapsar (limpiar (normalizar texto)))

/-- `coincide_municipio` (src/main.py lines 37-54). -/
def coincide_municipio (nombre_serie municipio : List Nat) : Bool :=
  let nombre := procesar nombre_serie
  let muni := procesar municipio
  (muni ++ [32]).isPrefixOf nombre || nombre == muni

/-! ### Series records and the exclusion filter -/

/-- A series record of the listing endpoint's payload, `{COD, Nombre, ...}`.
`none` models an absent field (`dict.get` returning `None`); the extra remote
fields are ignored by the pipeline and hence not modelled. -/
structure Serie where
  cod : Option (List Nat)
  nombre : Option (List Nat)
deriving DecidableEq

/-- Python truthiness test `not x` for an optional string: true when the field
is absent or the empty string. -/
def opcionVacia : Option (List Nat) → Bool
  | none => true
  | some l => l.isEmpty

/-- `FILTRO_EXCLUIR` (src/main.py lines 18-21). -/
def FILTRO_EXCLUIR : List (List Nat) :=
  [litU "ocupados", litU "consumo", litU "Censo", litU "censo", litU "vacías",
   litU "convencionales", litU "Mediana", litU "cuartil"]

/-- Model of Python's substring containment `p in l`: `p` occurs contiguously
in `l` (the empty needle occurs in every string). -/
def esSubcadena (p : List Nat) : List Nat → Bool
  | [] => p.isEmpty
  | c :: resto => p.isPrefixOf (c :: resto) || esSubcadena p resto

/-- `filtrar_series` (src/main.py lines 74-81): drop the series whose
lowercased name contains some lowercased keyword as a substring. -/
def filtrar_series (series : List Serie) (excluir : List (List Nat)) : List Serie :=
  if excluir.isEmpty then series
  else series.filter (fun s =>
    !(excluir.any (fun p => esSubcadena (lowerL p) (lowerL (s.nombre.getD [])))))

/-! ### Model of the remote service and `get_json_async` -/

/-- Decoded JSON payloads as far as this pipeline inspects them: the data
endpoint's payloads are opaque beyond their shape (array / object / other)
and their Python truthiness, so arrays and objects carry opaque element
tokens. -/
inductive Json where
  | arr : List Nat → Json
  | obj : List Nat → Json
  | otro : Json
deriving DecidableEq

/-- Python truthiness of a decoded JSON value as `get_datos_serie` tests it
(`data if data else []`). -/
def verdadero : Json → Bool
  | .arr l => !l.isEmpty
  | .obj l => !l.isEmpty
  | .otro => false

/-- Decoded payload of the series-listing endpoint: either a JSON list of
series records, or some non-list JSON value. -/
inductive PayloadListado where
  | lista : List Serie → PayloadListado
  | otro : PayloadListado
deriving DecidableEq

/-- Oracle for the listing endpoint `SERIES_TABLA/{tabla_id}`: an `error` is
an exception raised inside `get_json_async` (connection failure, timeout,
non-success HTTP status), an `ok` is the decoded JSON payload. -/
abbrev ListOracle := String → Except String PayloadListado

/-- Oracle for the data endpoint `DATOS_SERIE/{codigo}?nult={n_last}`. -/
abbrev DataOracle := List Nat → Nat → Except String Json

/-- The payload-shape guard of `get_json_async` (src/main.py lines 58-64):
a decoded value that is neither list nor dict becomes the empty list. -/
def get_json_async : Except String Json → Except String Json
  | .error e => .error e
  | .ok d => .ok (match d with | .otro => .arr [] | x => x)

/-- `get_series_municipio` (src/main.py lines 66-72): list the table's series
and keep those whose name matches the municipality.  A non-list payload yields
the empty list; an exception propagates to the caller. -/
def get_series_municipio (listO : ListOracle) (tabla_id : String)
    (municipio : List Nat) : Except String (List Serie) :=
  match listO tabla_id with
  | .error e => .error e
  | .ok .otro => .ok []
  | .ok (.lista data) =>
      .ok (data.filter (fun s => coincide_municipio (s.nombre.getD []) municipio))

/-- `get_datos_serie` (src/main.py lines 83-87): fetch the last values of one
series; a falsy payload becomes the empty list. -/
def get_datos_serie (dataO : DataOracle) (codigo : List Nat) (n_last : Nat) :
    Except String Json :=
  match get_json_async (dataO codigo n_last) with
  | .error e => .error e
  | .ok data => .ok (if verdadero data then data else .arr [])

/-! ### The orchestrator `get_datos_municipio` -/

/-- `TABLAS_MUNICIPALES` (src/main.py lines 11-16), in configuration order. -/
def TABLAS_MUNICIPALES : List (String × String) :=
  [("poblacion_municipio", "29005"),
   ("indicadores_urbanos", "69303"),
   ("hogares_vivienda", "69302"),
   ("superficie_uso_suelo", "69305")]

/-- Value stored under one series name in a table's result map: the fetched
observation payload, or the `{"error": str(e)}` marker. -/
inductive ValorSerie where
  | datos : Json → ValorSerie
  | error : String → ValorSerie
deriving DecidableEq

/-- Value stored under one indicator key: the per-series map (a Python dict,
modelled as an association list in insertion order), or the table-level
`{"error": str(e)}` marker. -/
inductive ValorTabla where
  | tabla : List (List Nat × ValorSerie) → ValorTabla
  | error : String → ValorTabla
deriving DecidableEq

/-- The aggregated result: indicator name to table value, in insertion
order. -/
abbrev Resultados := List (String × ValorTabla)

/-- Python dict assignment `d[k] = v` on an association list: an existing
key keeps its position and gets the new value, a new key is appended. -/
def dictInsert {α β : Type} [BEq α] (l : List (α × β)) (k : α) (v : β) :
    List (α × β) :=
  if l.any (fun p => p.1 == k) then
    l.map (fun p => if p.1 == k then (k, v) else p)
  else l ++ [(k, v)]

/-- The inner loop of `get_datos_municipio` (src/main.py lines 113-124):
build the per-series dict over the selected series, skipping records whose
`COD` or `Nombre` is missing or empty, and converting a fetch exception into
an error marker under that series name. -/
def procesarSeries (dataO : DataOracle) (n_last : Nat) (ss : List Serie) :
    List (List Nat × ValorSerie) :=
  ss.foldl (fun datos_tabla s =>
    if opcionVacia s.cod || opcionVacia s.nombre then datos_tabla
    else
      match get_datos_serie dataO (s.cod.getD []) n_last with
      | .ok datos => dictInsert datos_tabla (s.nombre.getD []) (ValorSerie.datos datos)
      | .error e => dictInsert datos_tabla (s.nombre.getD []) (ValorSerie.error e)) []

/-- One iteration of the orchestrator's table loop (src/main.py lines
106-126): a listing exception becomes the indicator's error marker, a listing
success is filtered by keyword, capped at 3 series, and fetched. -/
def tablaResultado (r : Except String (List Serie)) (dataO : DataOracle)
    (n_last : Nat) : ValorTabla :=
  match r with
  | .error e => .error e
  | .ok series =>
      .tabla (procesarSeries dataO n_last
        ((filtrar_series series FILTRO_EXCLUIR).take 3))

/-- The orchestration part of `get_datos_municipio` (src/main.py lines
98-126): fan out over the configured tables, pair each gathered outcome with
its indicator name, and assemble the result mapping. -/
def orquestar (listO : ListOracle) (dataO : DataOracle) (municipio : List Nat)
    (n_last : Nat) : Resultados :=
  let todas_series :=
    TABLAS_MUNICIPALES.map (fun t => get_series_municipio listO t.2 municipio)
  ((TABLAS_MUNICIPALES.map Prod.fst).zip todas_series).map
    (fun p => (p.1, tablaResultado p.2 dataO n_last))

/-- The contribution of one selected series record to the per-series dict:
`none` when the record is skipped for a missing or empty `COD`/`Nombre`,
otherwise its name paired with the value of its own observation fetch.  Used
to characterise `procesarSeries`. -/
def entradaSerie (dataO : DataOracle) (n_last : Nat) (s : Serie) :
    Option (List Nat × ValorSerie) :=
  if opcionVacia s.cod || opcionVacia s.nombre then none
  else some (s.nombre.getD [],
    match get_datos_serie dataO (s.cod.getD []) n_last with
    | .ok datos => ValorSerie.datos datos
    | .error e => ValorSerie.error e)

/-- Build a Python dict from a list of key-value pairs in order. -/
def aDict (l : List (List Nat × ValorSerie)) : List (List Nat × ValorSerie) :=
  l.foldl (fun acc p => dictInsert acc p.1 p.2) []

/-! ### The TTL cache -/

/-- A cache entry, `cache[municipio] = (timestamp, data)` (src/main.py line
24 and 129). -/
structure CacheEntry where
  timestamp : Nat
  data : Resultados
deriving DecidableEq

/-- The in-memory cache keyed by the exact municipality string. -/
abbrev Cache := List (List Nat × CacheEntry)

/-- `CACHE_TTL` (src/main.py line 23). -/
def CACHE_TTL : Nat := 3600

/-- The cache logic of `get_datos_municipio` (src/main.py lines 92-96 and
128-130) abstracted over the compute step, the §4.8 `getOrCompute`: return
the cached data when the entry is within the TTL, otherwise invoke the
compute function, store its result under the key with the entry timestamp
`now`, and return it.  The boolean records whether the compute function was
invoked. -/
def getOrCompute (computeFn : List Nat → Nat → Resultados) (cache : Cache)
    (now : Nat) (municipio : List Nat) (n_last : Nat) :
    Resultados × Cache × Bool :=
  match cache.lookup municipio with
  | some ent =>
      if now - ent.timestamp < CACHE_TTL then (ent.data, cache, false)
      else
        let resultados := computeFn municipio n_last
        (resultados, dictInsert cache municipio ⟨now, resultados⟩, true)
  | none =>
      let resultados := computeFn municipio n_last
      (resultados, dictInsert cache municipio ⟨now, resultados⟩, true)

/-- `get_datos_municipio` (src/main.py lines 89-130): the TTL cache in front
of the orchestration. -/
def get_datos_municipio (listO : ListOracle) (dataO : DataOracle)
    (cache : Cache) (now : Nat) (municipio : List Nat) (n_last : Nat) :
    Resultados × Cache × Bool :=
  getOrCompute (orquestar listO dataO) cache now municipio n_last

/-! ### The HTTP handler `consulta_municipio` -/

/-- Response envelope of `GET /municipio/{municipio}` (src/main.py lines
137-153). -/
inductive Respuesta where
  | ok : List Nat → Nat → Resultados → Respuesta
  | warning : List Nat → Respuesta
  | error : String → Respuesta
deriving DecidableEq

/-- The message `f"No se encontraron series para {municipio}"`. -/
def mensajeNoSeries (municipio : List Nat) : List Nat :=
  litU "No se encontraron series para " ++ municipio

/-- Observer: is a response the `status: "warning"` envelope? -/
def esWarning : Respuesta → Bool
  | .warning _ => true
  | _ => false

/-- `consulta_municipio` (src/main.py lines 137-153): the empty-dict test
`if not datos` selects the warning envelope, otherwise the ok envelope with
`n_series = len(datos)`.  Exceptions cannot arise in the embedding (every
remote failure is already data), so the `except` arm is not reachable. -/
def consulta_municipio (listO : ListOracle) (dataO : DataOracle)
    (cache : Cache) (now : Nat) (municipio : List Nat) (n_last : Nat) :
    Respuesta × Cache :=
  let r := get_datos_municipio listO dataO cache now municipio n_last
  let datos := r.1
  if datos.isEmpty then (.warning (mensajeNoSeries municipio), r.2.1)
  else (.ok municipio datos.length datos, r.2.1)

/-! ### Concrete stub oracles and fixtures used by closed instances -/

/-- Stub listing oracle: every table lists no series. -/
def lOvacio : ListOracle := fun _ => .ok (.lista [])

/-- Stub data oracle that always fails. -/
def dOvacio : DataOracle := fun _ _ => .error ""

/-- Stub data oracle that always returns a one-element array. -/
def dOok : DataOracle := fun _ _ => .ok (.arr [7])

/-- Five series matching municipality "a"; the second lacks its `COD`
field. -/
def series5 : List Serie :=
  [⟨some (litU "c1"), some (litU "a 1")⟩,
   ⟨none, some (litU "a 2")⟩,
   ⟨some (litU "c3"), some (litU "a 3")⟩,
   ⟨some (litU "c4"), some (litU "a 4")⟩,
   ⟨some (litU "c5"), some (litU "a 5")⟩]

/-- Stub listing oracle serving `series5` for every table. -/
def lO5 : ListOracle := fun _ => .ok (.lista series5)

/-- Stub listing oracle failing on table 29005 and empty elsewhere. -/
def lOfalla : ListOracle :=
  fun t => if t = "29005" then .error "boom" else .ok (.lista [])

/-- Stub compute function whose result depends on `n_last`. -/
def computeDemo : List Nat → Nat → Resultados := fun _ n =>
  [("poblacion_municipio", ValorTabla.tabla [([n], ValorSerie.datos (Json.arr [1]))])]

/-- A fixed aggregated result used in the cache fixtures. -/
def resDemo : Resultados := [("poblacion_municipio", ValorTabla.error "x")]

/-- A cache holding one entry with timestamp 10. -/
def cacheDemo : Cache := [(litU "b", ⟨10, resDemo⟩)]

/-! ### Helper lemmas: dictionaries -/

theorem lookup_map_reemplaza {α β : Type} [BEq α] [LawfulBEq α] (k : α) (v : β) :
    ∀ (l : List (α × β)), l.any (fun p => p.1 == k) = true →
      (l.map (fun p => if p.1 == k then (k, v) else p)).lookup k = some v := by
  intro l
  induction l with
  | nil => intro h; simp at h
  | cons p t ih =>
    obtain ⟨a, b⟩ := p
    intro h
    cases hpk : a == k with
    | true =>
      simp [List.map_cons, hpk, List.lookup_cons, beq_self_eq_true]
    | false =>
      have hkp : (k == a) = false := by
        rw [beq_eq_false_iff_ne] at hpk ⊢
        exact fun hk => hpk hk.symm
      simp only [List.any_cons, hpk, Bool.false_or] at h
      simp only [List.map_cons, hpk, Bool.false_eq_true, if_false, List.lookup_cons, hkp]
      exact ih h

theorem lookup_append_clave {α β : Type} [BEq α] [LawfulBEq α] (k : α) (v : β) :
    ∀ (l : List (α × β)), l.any (fun p => p.1 == k) = false →
      (l ++ [(k, v)]).lookup k = some v := by
  intro l
  induction l with
  | nil => simp [List.lookup_cons]
  | cons p t ih =>
    obtain ⟨a, b⟩ := p
    intro h
    simp only [List.any_cons, Bool.or_eq_false_iff] at h
    have hkp : (k == a) = false := by
      rw [beq_eq_false_iff_ne] at *
      exact fun hk => h.1 hk.symm
    simp only [List.cons_append, List.lookup_cons, hkp]
    exact ih h.2

/-- Writing a key with `dictInsert` makes it retrievable: the stored value is
found by a subsequent lookup, whether the key was present before or not. -/
theorem lookup_dictInsert {α β : Type} [BEq α] [LawfulBEq α]
    (l : List (α × β)) (k : α) (v : β) :
    (dictInsert l k v).lookup k = some v := by
  unfold dictInsert
  split
  case isTrue h => exact lookup_map_reemplaza k v l h
  case isFalse h =>
    refine lookup_append_clave k v l ?_
    cases hh : l.any (fun p => p.1 == k) with
    | true => exact absurd hh h
    | false => rfl

theorem length_dictInsert_le {α β : Type} [BEq α]
    (l : List (α × β)) (k : α) (v : β) :
    (dictInsert l k v).length ≤ l.length + 1 := by
  unfold dictInsert
  split
  · simp
  · simp

/-! ### Helper lemmas: the per-series loop -/

theorem procesarSeries_foldl_eq (dataO : DataOracle) (n_last : Nat) :
    ∀ (ss : List Serie) (acc : List (List Nat × ValorSerie)),
      ss.foldl (fun datos_tabla s =>
        if opcionVacia s.cod || opcionVacia s.nombre then datos_tabla
        else
          match get_datos_serie dataO (s.cod.getD []) n_last with
          | .ok datos => dictInsert datos_tabla (s.nombre.getD []) (ValorSerie.datos datos)
          | .error e => dictInsert datos_tabla (s.nombre.getD []) (ValorSerie.error e)) acc
      = (ss.filterMap (entradaSerie dataO n_last)).foldl
          (fun acc p => dictInsert acc p.1 p.2) acc := by
  intro ss
  induction ss with
  | nil => intro acc; rfl
  | cons s t ih =>
    intro acc
    by_cases hv : (opcionVacia s.cod || opcionVacia s.nombre) = true
    · simp only [List.foldl_cons, hv, if_pos rfl, List.filterMap_cons, entradaSerie, hv]
      exact ih acc
    · simp only [List.foldl_cons, hv, if_false, List.filterMap_cons, entradaSerie]
      cases hd : get_datos_serie dataO (s.cod.getD []) n_last with
      | ok datos => simp only [hv, Bool.false_eq_true, if_false, hd, List.foldl_cons]; exact ih _
      | error e => simp only [hv, Bool.false_eq_true, if_false, hd, List.foldl_cons]; exact ih _

/-- The per-series dict is exactly the dict built from the valid records of
the selected list, each valued by its own observation fetch alone. -/
theorem procesarSeries_caracterizacion (dataO : DataOracle) (n_last : Nat)
    (ss : List Serie) :
    procesarSeries dataO n_last ss = aDict (ss.filterMap (entradaSerie dataO n_last)) :=
  procesarSeries_foldl_eq dataO n_last ss []

theorem length_foldl_dictInsert_le :
    ∀ (l : List (List Nat × ValorSerie)) (acc : List (List Nat × ValorSerie)),
      (l.foldl (fun acc p => dictInsert acc p.1 p.2) acc).length ≤ acc.length + l.length := by
  intro l
  induction l with
  | nil => intro acc; simp
  | cons p t ih =>
    intro acc
    simp only [List.foldl_cons, List.length_cons]
    calc (t.foldl (fun acc p => dictInsert acc p.1 p.2) (dictInsert acc p.1 p.2)).length
        ≤ (dictInsert acc p.1 p.2).length + t.length := ih _
      _ ≤ (acc.length + 1) + t.length := by
          have := length_dictInsert_le acc p.1 p.2; omega
      _ = acc.length + (t.length + 1) := by omega

theorem length_procesarSeries_le (dataO : DataOracle) (n_last : Nat)
    (ss : List Serie) :
    (procesarSeries dataO n_last ss).length ≤ ss.length := by
  rw [procesarSeries_caracterizacion]
  calc (aDict (ss.filterMap (entradaSerie dataO n_last))).length
      ≤ 0 + (ss.filterMap (entradaSerie dataO n_last)).length :=
        length_foldl_dictInsert_le _ []
    _ ≤ ss.length := by
        have := List.length_filterMap_le (entradaSerie dataO n_last) ss; omega

/-- `orquestar` unfolded over the concrete table configuration. -/
theorem orquestar_expandido (listO : ListOracle) (dataO : DataOracle)
    (m : List Nat) (n : Nat) :
    orquestar listO dataO m n =
      [("poblacion_municipio", tablaResultado (get_series_municipio listO "29005" m) dataO n),
       ("indicadores_urbanos", tablaResultado (get_series_municipio listO "69303" m) dataO n),
       ("hogares_vivienda", tablaResultado (get_series_municipio listO "69302" m) dataO n),
       ("superficie_uso_suelo", tablaResultado (get_series_municipio listO "69305" m) dataO n)] := rfl

/-- Characterisation of the boolean `isPrefixOf` as an explicit
decomposition. -/
theorem esPrefijo_iff :
    ∀ (p l : List Nat), p.isPrefixOf l = true ↔ ∃ t, l = p ++ t := by
  intro p
  induction p with
  | nil => intro l; simp [List.isPrefixOf]
  | cons a p ih =>
    intro l
    cases l with
    | nil => simp [List.isPrefixOf]
    | cons b t =>
      simp only [List.isPrefixOf, Bool.and_eq_true, beq_iff_eq, ih t,
        List.cons_append, List.cons.injEq]
      constructor
      · rintro ⟨rfl, u, rfl⟩
        exact ⟨u, rfl, rfl⟩
      · rintro ⟨u, rfl, rfl⟩
        exact ⟨rfl, u, rfl⟩

/-! ### Helper lemmas: characters.

Every character function of the model is the identity above the combining
diacritical marks block, so each per-character fact is settled by exhaustive
evaluation below 880 plus a uniform argument above. -/

theorem lowerChar_grande {d : Nat} (h : 880 ≤ d) : lowerChar d = d := by
  unfold lowerChar; split_ifs <;> omega

theorem nfdChar_grande {d : Nat} (h : 880 ≤ d) : nfdChar d = [d] := by
  have hne : ∀ k : Nat, k < 880 → ¬ d = k := by
    intro k hk hdk
    omega
  unfold nfdChar
  rw [if_neg (hne 225 (by norm_num)), if_neg (hne 233 (by norm_num)),
    if_neg (hne 237 (by norm_num)), if_neg (hne 243 (by norm_num)),
    if_neg (hne 250 (by norm_num)), if_neg (hne 252 (by norm_num)),
    if_neg (hne 241 (by norm_num)), if_neg (hne 193 (by norm_num)),
    if_neg (hne 201 (by norm_num)), if_neg (hne 205 (by norm_num)),
    if_neg (hne 211 (by norm_num)), if_neg (hne 218 (by norm_num)),
    if_neg (hne 220 (by norm_num)), if_neg (hne 209 (by norm_num))]

theorem esMarca_grande {d : Nat} (h : 880 ≤ d) : esMarca d = false := by
  have hn : ¬(768 ≤ d ∧ d ≤ 879) := by omega
  exact decide_eq_false hn

theorem esEspacio_grande {d : Nat} (h : 880 ≤ d) : esEspacio d = false := by
  unfold esEspacio
  simp only [Bool.or_eq_false_iff, beq_eq_false_iff_ne, ne_eq]
  omega

theorem baseChar_grande {d : Nat} (h : 880 ≤ d) : baseChar d = d := by
  unfold baseChar
  rw [nfdChar_grande h]
  simp [List.filter, esMarca_grande h]

theorem esMarca_lowerChar (d : Nat) : esMarca (lowerChar d) = esMarca d := by
  rcases Nat.lt_or_ge d 880 with h | h
  · exact (by decide : ∀ x, x < 880 → esMarca (lowerChar x) = esMarca x) d h
  · rw [lowerChar_grande h]

theorem filtro_nfdChar (d : Nat) (h : esMarca d = false) :
    (nfdChar d).filter (fun c => !(esMarca c)) = [baseChar d] := by
  rcases Nat.lt_or_ge d 880 with hd | hd
  · exact (by decide : ∀ x, x < 880 → esMarca x = false →
      (nfdChar x).filter (fun c => !(esMarca c)) = [baseChar x]) d hd h
  · rw [nfdChar_grande hd, baseChar_grande hd]
    simp [List.filter, esMarca_grande hd]

theorem esMarca_baseChar (d : Nat) : esMarca (baseChar d) = esMarca d := by
  rcases Nat.lt_or_ge d 880 with h | h
  · exact (by decide : ∀ x, x < 880 → esMarca (baseChar x) = esMarca x) d h
  · rw [baseChar_grande h]

theorem esEspacio_baseChar (d : Nat) : esEspacio (baseChar d) = esEspacio d := by
  rcases Nat.lt_or_ge d 880 with h | h
  · exact (by decide : ∀ x, x < 880 → esEspacio (baseChar x) = esEspacio x) d h
  · rw [baseChar_grande h]

theorem lowerChar_base_lower (d : Nat) :
    lowerChar (baseChar (lowerChar d)) = baseChar (lowerChar d) := by
  rcases Nat.lt_or_ge d 880 with h | h
  · exact (by decide : ∀ x, x < 880 →
      lowerChar (baseChar (lowerChar x)) = baseChar (lowerChar x)) d h
  · rw [lowerChar_grande h, baseChar_grande h, lowerChar_grande h]

theorem baseChar_base_lower (d : Nat) :
    baseChar (baseChar (lowerChar d)) = baseChar (lowerChar d) := by
  rcases Nat.lt_or_ge d 880 with h | h
  · exact (by decide : ∀ x, x < 880 →
      baseChar (baseChar (lowerChar x)) = baseChar (lowerChar x)) d h
  · rw [lowerChar_grande h, baseChar_grande h, baseChar_grande h]

/-! ### Helper lemmas: strings and trimming -/

theorem mapa_id {α : Type} (f : α → α) :
    ∀ (l : List α), (∀ c ∈ l, f c = c) → l.map f = l := by
  intro l
  induction l with
  | nil => intro _; rfl
  | cons c t ih =>
    intro h
    simp only [List.map_cons, h c (List.mem_cons_self c t)]
    rw [ih (fun x hx => h x (List.mem_cons_of_mem c hx))]

theorem mem_of_mem_dropWhile {α : Type} (p : α → Bool) :
    ∀ (l : List α) (a : α), a ∈ l.dropWhile p → a ∈ l := by
  intro l
  induction l with
  | nil => intro a h; simp [List.dropWhile] at h
  | cons c t ih =>
    intro a h
    rw [List.dropWhile_cons] at h
    by_cases hc : p c = true
    · rw [if_pos hc] at h
      exact List.mem_cons_of_mem c (ih a h)
    · rw [if_neg hc] at h
      exact h

theorem mem_recortar (l : List Nat) (a : Nat) (h : a ∈ recortar l) : a ∈ l := by
  unfold recortar at h
  rw [List.mem_reverse] at h
  have h2 := mem_of_mem_dropWhile esEspacio _ _ h
  rw [List.mem_reverse] at h2
  exact mem_of_mem_dropWhile esEspacio _ _ h2

theorem head?_dropWhile_falso {α : Type} (p : α → Bool) :
    ∀ (l : List α) (c : α), (l.dropWhile p).head? = some c → p c = false := by
  intro l
  induction l with
  | nil => intro c h; simp [List.dropWhile] at h
  | cons a t ih =>
    intro c h
    rw [List.dropWhile_cons] at h
    by_cases ha : p a = true
    · rw [if_pos ha] at h
      exact ih c h
    · rw [if_neg ha] at h
      simp only [List.head?_cons, Option.some.injEq] at h
      rw [← h]
      cases hpa : p a with
      | true => exact absurd hpa ha
      | false => rfl

theorem dropWhile_eq_self_de_cabeza {α : Type} (p : α → Bool) (l : List α)
    (h : ∀ c, l.head? = some c → p c = false) : l.dropWhile p = l := by
  cases l with
  | nil => rfl
  | cons a t =>
    rw [List.dropWhile_cons, if_neg]
    rw [h a rfl]
    simp

theorem head?_recortar (w : List Nat) (c : Nat)
    (h : (recortar w).head? = some c) : esEspacio c = false := by
  unfold recortar at h
  set v := w.dropWhile esEspacio with hv
  set u := v.reverse.dropWhile esEspacio with hu
  obtain ⟨t, ht⟩ : ∃ t, t ++ u = v.reverse := List.dropWhile_suffix esEspacio
  obtain ⟨resto, hr⟩ : ∃ resto, u.reverse = c :: resto := by
    cases hcu : u.reverse with
    | nil => rw [hcu] at h; simp at h
    | cons x xs =>
      rw [hcu] at h
      simp only [List.head?_cons, Option.some.injEq] at h
      exact ⟨xs, by rw [← h]⟩
  have hvv : v = c :: (resto ++ t.reverse) := by
    have : v = (t ++ u).reverse := by rw [ht, List.reverse_reverse]
    rw [this, List.reverse_append, hr]
    simp
  apply head?_dropWhile_falso esEspacio w c
  rw [← hv, hvv]
  rfl

theorem getLast?_recortar (w : List Nat) (c : Nat)
    (h : (recortar w).getLast? = some c) : esEspacio c = false := by
  unfold recortar at h
  rw [List.getLast?_reverse] at h
  exact head?_dropWhile_falso esEspacio _ c h

theorem recortar_eq_self (l : List Nat)
    (h1 : ∀ c, l.head? = some c → esEspacio c = false)
    (h2 : ∀ c, l.getLast? = some c → esEspacio c = false) :
    recortar l = l := by
  unfold recortar
  rw [dropWhile_eq_self_de_cabeza esEspacio l h1]
  rw [dropWhile_eq_self_de_cabeza esEspacio l.reverse
    (fun c hc => h2 c (by rw [← List.head?_reverse]; exact hc))]
  exact List.reverse_reverse l

theorem filtro_nfdL_marcaLibre :
    ∀ (z : List Nat), (∀ c ∈ z, esMarca c = false) →
      (nfdL z).filter (fun c => !(esMarca c)) = z.map baseChar := by
  intro z
  induction z with
  | nil => intro _; rfl
  | cons c t ih =>
    intro h
    show (nfdChar c ++ nfdL t).filter (fun c => !(esMarca c)) = _
    rw [List.filter_append, filtro_nfdChar c (h c (List.mem_cons_self c t)),
      ih (fun x hx => h x (List.mem_cons_of_mem c hx))]
    rfl

/-- Idempotence of the normalizer on inputs free of freestanding combining
marks: the output of one pass is lowercase, mark-free and trimmed, so a
second pass leaves it unchanged. -/
theorem normalizar_idem_aux (l : List Nat) (hl : ∀ c ∈ l, esMarca c = false) :
    normalizar (normalizar l) = normalizar l := by
  by_cases hE : l.isEmpty = true
  · have hnil : l = [] := by cases l with | nil => rfl | cons a t => simp at hE
    rw [hnil]
    rfl
  · have hzm : ∀ c ∈ recortar (lowerL l), esMarca c = false := by
      intro c hc
      obtain ⟨d, hd, rfl⟩ := List.mem_map.mp (mem_recortar _ _ hc)
      rw [esMarca_lowerChar]
      exact hl d hd
    have hy : normalizar l = (recortar (lowerL l)).map baseChar := by
      unfold normalizar
      rw [if_neg hE]
      exact filtro_nfdL_marcaLibre _ hzm
    by_cases hyE : ((recortar (lowerL l)).map baseChar).isEmpty = true
    · have hnil : (recortar (lowerL l)).map baseChar = [] := by
        cases hc : (recortar (lowerL l)).map baseChar with
        | nil => rfl
        | cons a t => rw [hc] at hyE; simp at hyE
      rw [hy, hnil]
      rfl
    · have hyM : ∀ c ∈ (recortar (lowerL l)).map baseChar, esMarca c = false := by
        intro c hc
        obtain ⟨b, hb, rfl⟩ := List.mem_map.mp hc
        rw [esMarca_baseChar]
        exact hzm b hb
      have hlow : lowerL ((recortar (lowerL l)).map baseChar)
          = (recortar (lowerL l)).map baseChar := by
        apply mapa_id
        intro c hc
        obtain ⟨b, hb, rfl⟩ := List.mem_map.mp hc
        obtain ⟨d, hd, rfl⟩ := List.mem_map.mp (mem_recortar _ _ hb)
        exact lowerChar_base_lower d
      have hrec : recortar ((recortar (lowerL l)).map baseChar)
          = (recortar (lowerL l)).map baseChar := by
        apply recortar_eq_self
        · intro c hc
          rw [List.head?_map] at hc
          cases hzh : (recortar (lowerL l)).head? with
          | none => rw [hzh] at hc; exact Option.noConfusion hc
          | some b =>
            rw [hzh] at hc
            have hc2 : baseChar b = c := Option.some.inj hc
            rw [← hc2, esEspacio_baseChar]
            exact head?_recortar (lowerL l) b hzh
        · intro c hc
          rw [List.getLast?_map] at hc
          cases hzh : (recortar (lowerL l)).getLast? with
          | none => rw [hzh] at hc; exact Option.noConfusion hc
          | some b =>
            rw [hzh] at hc
            have hc2 : baseChar b = c := Option.some.inj hc
            rw [← hc2, esEspacio_baseChar]
            exact getLast?_recortar (lowerL l) b hzh
      have hbase : ((recortar (lowerL l)).map baseChar).map baseChar
          = (recortar (lowerL l)).map baseChar := by
        apply mapa_id
        intro c hc
        obtain ⟨b, hb, rfl⟩ := List.mem_map.mp hc
        obtain ⟨d, hd, rfl⟩ := List.mem_map.mp (mem_recortar _ _ hb)
        exact baseChar_base_lower d
      rw [hy]
      unfold normalizar
      rw [if_neg hyE, hlow, hrec, filtro_nfdL_marcaLibre _ hyM, hbase]

/-! ### Claim theorems -/

/-- C7, counterexample: the normalizer is not idempotent on every input.  On
the input U+0301, space, "a" the first pass trims before stripping the mark
and returns " a" (space exposed at the front), while the second pass trims
that space away. -/
theorem normalizar_contraejemplo_idempotencia :
    ¬ (normalizar (normalizar [769, 32, 97]) = normalizar [769, 32, 97]) := by
  decide

/-- C7 (amended): the normalizer is idempotent on every input containing no
freestanding combining-mark character; its output lowercases, strips the
combining marks of the NFD decomposition and trims whitespace (the trim
happening before mark-stripping); empty input yields the empty string, and
the specification's concrete examples hold. -/
theorem normalizar_idempotente_sin_marcas :
    (∀ l : List Nat, (∀ c ∈ l, esMarca c = false) →
      normalizar (normalizar l) = normalizar l)
    ∧ normalizar [] = []
    ∧ normalizar (litU "MADRID") = normalizar (litU "madrid")
    ∧ normalizar (litU "Málaga") = litU "malaga" :=
  ⟨fun l hl => normalizar_idem_aux l hl, rfl, by decide, by decide⟩

/-- C7, witness: the amended idempotence applied to the concrete input
"Málaga". -/
theorem normalizar_idempotente_sin_marcas_testigo :
    (∀ c ∈ litU "Málaga", esMarca c = false)
    ∧ normalizar (normalizar (litU "Málaga")) = normalizar (litU "Málaga") :=
  ⟨by decide, normalizar_idempotente_sin_marcas.1 (litU "Málaga") (by decide)⟩

/-- C5: the matcher accepts exactly when the processed series name equals the
processed municipality name or starts with it followed by a single space, and
the specification's four concrete examples hold. -/
theorem coincidencia_estricta :
    (∀ s m : List Nat, coincide_municipio s m = true ↔
      (procesar s = procesar m ∨ ∃ resto, procesar s = procesar m ++ 32 :: resto))
    ∧ coincide_municipio (litU "Madrid Capital - total") (litU "Madrid") = true
    ∧ coincide_municipio (litU "Madrid") (litU "Madrid") = true
    ∧ coincide_municipio (litU "Madrid centro") (litU "Madrid") = true
    ∧ coincide_municipio (litU "Humanes de Madrid - total") (litU "Madrid") = false := by
  refine ⟨?_, by decide, by decide, by decide, by decide⟩
  intro s m
  unfold coincide_municipio
  simp only [Bool.or_eq_true, beq_iff_eq, esPrefijo_iff]
  constructor
  · rintro (⟨t, ht⟩ | heq)
    · right
      exact ⟨t, by rw [ht, List.append_assoc]; rfl⟩
    · left; exact heq
  · rintro (heq | ⟨resto, hr⟩)
    · right; exact heq
    · left
      exact ⟨resto, by rw [hr, List.append_assoc]; rfl⟩

/-- C5, witness: the characterisation applied to the concrete pair
("Madrid Capital - total", "Madrid"). -/
theorem coincidencia_estricta_testigo :
    procesar (litU "Madrid Capital - total") = procesar (litU "Madrid")
    ∨ ∃ resto, procesar (litU "Madrid Capital - total")
        = procesar (litU "Madrid") ++ 32 :: resto :=
  (coincidencia_estricta.1 (litU "Madrid Capital - total") (litU "Madrid")).mp
    (by decide)

/-- C8: the exclusion filter returns exactly the subset of series whose
lowercased name contains no lowercased keyword as a substring; an empty
keyword list is a no-op, and the specification's concrete example holds. -/
theorem filtro_exclusion :
    (∀ (series : List Serie) (excluir : List (List Nat)),
      filtrar_series series excluir = series.filter (fun s =>
        !(excluir.any (fun p => esSubcadena (lowerL p) (lowerL (s.nombre.getD []))))))
    ∧ (∀ series : List Serie, filtrar_series series [] = series)
    ∧ filtrar_series
        [Serie.mk (some (litU "1")) (some (litU "Censo de población")),
         Serie.mk (some (litU "2")) (some (litU "Población total"))] [litU "Censo"]
      = [Serie.mk (some (litU "2")) (some (litU "Población total"))] := by
  refine ⟨?_, fun series => rfl, by decide⟩
  intro series excluir
  cases excluir with
  | nil =>
    show series = series.filter _
    simp only [List.any_nil, Bool.not_false, List.filter_true]
  | cons p t => rfl

/-- C9: for every pair of oracles the aggregated result has exactly one key
per configured table, in configuration order, and is therefore never
empty. -/
theorem resultado_cuatro_indicadores :
    ∀ (listO : ListOracle) (dataO : DataOracle) (m : List Nat) (n : Nat),
      (orquestar listO dataO m n).map Prod.fst = TABLAS_MUNICIPALES.map Prod.fst
      ∧ (orquestar listO dataO m n).map Prod.fst
          = ["poblacion_municipio", "indicadores_urbanos",
             "hogares_vivienda", "superficie_uso_suelo"]
      ∧ (orquestar listO dataO m n).isEmpty = false :=
  fun _ _ _ _ => ⟨rfl, rfl, rfl⟩

/-- C6: per table at most three selected series appear in the result map,
and a successful listing's entry is computed from exactly the first three
matched-and-filtered series — everything beyond the cap is dropped without a
marker. -/
theorem limite_tres_series :
    ∀ (listO : ListOracle) (dataO : DataOracle) (m : List Nat) (n : Nat),
      (∀ p ∈ orquestar listO dataO m n, ∀ mp, p.2 = ValorTabla.tabla mp → mp.length ≤ 3)
      ∧ (∀ (tid : String) (datos : List Serie),
          listO tid = Except.ok (PayloadListado.lista datos) →
          tablaResultado (get_series_municipio listO tid m) dataO n
            = ValorTabla.tabla (procesarSeries dataO n
                ((filtrar_series (datos.filter
                    (fun s => coincide_municipio (s.nombre.getD []) m))
                  FILTRO_EXCLUIR).take 3))) := by
  intro listO dataO m n
  constructor
  · have key : ∀ (r : Except String (List Serie)) (mp : List (List Nat × ValorSerie)),
        tablaResultado r dataO n = ValorTabla.tabla mp → mp.length ≤ 3 := by
      intro r mp hmp
      cases r with
      | error e => exact absurd hmp (by simp [tablaResultado])
      | ok series =>
        simp only [tablaResultado, ValorTabla.tabla.injEq] at hmp
        rw [← hmp]
        calc (procesarSeries dataO n ((filtrar_series series FILTRO_EXCLUIR).take 3)).length
            ≤ ((filtrar_series series FILTRO_EXCLUIR).take 3).length :=
              length_procesarSeries_le _ _ _
          _ ≤ 3 := by rw [List.length_take]; omega
    intro p hp mp hmp
    rw [orquestar_expandido] at hp
    simp only [List.mem_cons, List.mem_singleton] at hp
    rcases hp with rfl | rfl | rfl | rfl | h
    · exact key _ mp hmp
    · exact key _ mp hmp
    · exact key _ mp hmp
    · exact key _ mp hmp
    · exact absurd h (List.not_mem_nil p)
  · intro tid datos h
    have hg : get_series_municipio listO tid m
        = Except.ok (datos.filter (fun s => coincide_municipio (s.nombre.getD []) m)) := by
      unfold get_series_municipio
      rw [h]
    rw [hg]
    rfl

/-- C6, witness: the cap applied at the first indicator of a concrete
all-empty listing. -/
theorem limite_tres_series_testigo :
    (("poblacion_municipio", ValorTabla.tabla []) ∈ orquestar lOvacio dOvacio (litU "Xy") 5)
    ∧ ([] : List (List Nat × ValorSerie)).length ≤ 3 :=
  ⟨by decide,
   (limite_tres_series lOvacio dOvacio (litU "Xy") 5).1
     ("poblacion_municipio", ValorTabla.tabla []) (by decide) [] rfl⟩

/-- C4: failures are isolated.  Each indicator's entry is a function of its
own table's listing outcome and the data oracle alone; a listing failure
becomes that indicator's single error marker; and within a table each
series' value is determined by its own fetch alone (a fetch failure becomes
the marker under that series name), so no failure of one unit affects
another and none escapes as a raised error. -/
theorem fallos_aislados :
    ∀ (listO listO' : ListOracle) (dataO dataO' : DataOracle) (m : List Nat)
      (n : Nat) (ind tid : String), (ind, tid) ∈ TABLAS_MUNICIPALES →
      ((listO tid = listO' tid → (∀ c k, dataO c k = dataO' c k) →
          (orquestar listO dataO m n).lookup ind
            = (orquestar listO' dataO' m n).lookup ind)
       ∧ (∀ e, listO tid = Except.error e →
          (orquestar listO dataO m n).lookup ind = some (ValorTabla.error e))
       ∧ (∀ ss, procesarSeries dataO n ss
            = aDict (ss.filterMap (entradaSerie dataO n)))) := by
  intro listO listO' dataO dataO' m n ind tid hmem
  simp only [TABLAS_MUNICIPALES, List.mem_cons, List.mem_singleton,
    Prod.mk.injEq, List.not_mem_nil, or_false] at hmem
  refine ⟨?_, ?_, fun ss => procesarSeries_caracterizacion dataO n ss⟩
  · intro hlo hdo
    have hdd : dataO = dataO' := funext fun c => funext fun k => hdo c k
    subst hdd
    have hgs : get_series_municipio listO tid m = get_series_municipio listO' tid m := by
      unfold get_series_municipio
      rw [hlo]
    rcases hmem with ⟨rfl, rfl⟩ | ⟨rfl, rfl⟩ | ⟨rfl, rfl⟩ | ⟨rfl, rfl⟩ <;>
      · rw [orquestar_expandido, orquestar_expandido, hgs]
        exact rfl
  · intro e he
    have hg : get_series_municipio listO tid m = Except.error e := by
      unfold get_series_municipio
      rw [he]
    rcases hmem with ⟨rfl, rfl⟩ | ⟨rfl, rfl⟩ | ⟨rfl, rfl⟩ | ⟨rfl, rfl⟩ <;>
      · rw [orquestar_expandido, hg]
        exact rfl

/-- C4, witness: a failing first table produces its error marker, applied at
concrete oracles. -/
theorem fallos_aislados_testigo :
    (("poblacion_municipio", "29005") ∈ TABLAS_MUNICIPALES)
    ∧ (orquestar lOfalla dOok (litU "a") 5).lookup "poblacion_municipio"
        = some (ValorTabla.error "boom") :=
  ⟨by decide,
   (fallos_aislados lOfalla lOfalla dOok dOok (litU "a") 5
     "poblacion_municipio" "29005" (by decide)).2.1 "boom" rfl⟩

/-- C10: within the selected (capped) series, records lacking `COD` or
`Nombre` (or with an empty value) contribute nothing — no fetch result, no
marker — and are not replaced from beyond the cap, so a table can yield
fewer than three entries even though more than three valid matching series
exist (concrete scenario: five matching series, the second without `COD`,
yield two entries). -/
theorem series_invalidas_omitidas :
    (∀ (dataO : DataOracle) (n : Nat) (ss : List Serie),
       procesarSeries dataO n ss = aDict (ss.filterMap (entradaSerie dataO n)))
    ∧ (orquestar lO5 dOok (litU "a") 5).lookup "poblacion_municipio"
        = some (ValorTabla.tabla
            [(litU "a 1", ValorSerie.datos (Json.arr [7])),
             (litU "a 3", ValorSerie.datos (Json.arr [7]))])
    ∧ ((filtrar_series (series5.filter
          (fun s => coincide_municipio (s.nombre.getD []) (litU "a"))) FILTRO_EXCLUIR).filter
          (fun s => !(opcionVacia s.cod || opcionVacia s.nombre))).length = 4 :=
  ⟨fun dataO n ss => procesarSeries_caracterizacion dataO n ss, by decide, by decide⟩

/-- C3: the cache contract.  A fresh entry (age under TTL) is returned
without invoking the compute function; a stale or missing entry causes the
compute function to run, its result to be stored under the key with the
current timestamp (overwriting any prior entry, as the lookup after the
write shows), and to be returned.  The TTL is fixed at 3600 seconds. -/
theorem cache_ttl_contrato :
    ∀ (computeFn : List Nat → Nat → Resultados) (cache : Cache) (now : Nat)
      (m : List Nat) (n : Nat),
      (∀ ent, cache.lookup m = some ent → now - ent.timestamp < CACHE_TTL →
          getOrCompute computeFn cache now m n = (ent.data, cache, false))
      ∧ (∀ ent, cache.lookup m = some ent → ¬(now - ent.timestamp < CACHE_TTL) →
          getOrCompute computeFn cache now m n
            = (computeFn m n, dictInsert cache m ⟨now, computeFn m n⟩, true))
      ∧ (cache.lookup m = none →
          getOrCompute computeFn cache now m n
            = (computeFn m n, dictInsert cache m ⟨now, computeFn m n⟩, true))
      ∧ (dictInsert cache m ⟨now, computeFn m n⟩).lookup m = some ⟨now, computeFn m n⟩
      ∧ CACHE_TTL = 3600 := by
  intro computeFn cache now m n
  refine ⟨?_, ?_, ?_, lookup_dictInsert cache m ⟨now, computeFn m n⟩, rfl⟩
  · intro ent hent httl
    unfold getOrCompute
    rw [hent]
    simp only [httl, if_true]
  · intro ent hent httl
    unfold getOrCompute
    rw [hent]
    simp only [httl, if_false]
  · intro hnone
    unfold getOrCompute
    rw [hnone]

/-- C3, witness: a fresh concrete entry is served from the cache. -/
theorem cache_ttl_contrato_testigo :
    cacheDemo.lookup (litU "b") = some ⟨10, resDemo⟩
    ∧ 11 - 10 < CACHE_TTL
    ∧ getOrCompute computeDemo cacheDemo 11 (litU "b") 5 = (resDemo, cacheDemo, false) :=
  ⟨by decide, by decide,
   (cache_ttl_contrato computeDemo cacheDemo 11 (litU "b") 5).1 ⟨10, resDemo⟩
     (by decide) (by decide)⟩

/-- C2: the cache key is the municipality alone.  If a first call stored a
result computed for `n₁`, a second call within the TTL window returns that
stored result unchanged without invoking the compute function, for every
second count `n₂`. -/
theorem cache_ignora_nlast :
    ∀ (computeFn : List Nat → Nat → Resultados) (cache : Cache)
      (now₁ now₂ : Nat) (m : List Nat) (n₁ n₂ : Nat),
      (getOrCompute computeFn cache now₁ m n₁).2.2 = true →
      now₂ - now₁ < CACHE_TTL →
      getOrCompute computeFn ((getOrCompute computeFn cache now₁ m n₁).2.1) now₂ m n₂
        = ((getOrCompute computeFn cache now₁ m n₁).1,
           (getOrCompute computeFn cache now₁ m n₁).2.1, false) := by
  intro computeFn cache now₁ now₂ m n₁ n₂ hstored httl
  have hsplit : getOrCompute computeFn cache now₁ m n₁
      = (computeFn m n₁, dictInsert cache m ⟨now₁, computeFn m n₁⟩, true) := by
    cases hlk : cache.lookup m with
    | none =>
      unfold getOrCompute
      rw [hlk]
    | some ent =>
      by_cases h : now₁ - ent.timestamp < CACHE_TTL
      · have heq : getOrCompute computeFn cache now₁ m n₁ = (ent.data, cache, false) := by
          unfold getOrCompute
          rw [hlk]
          simp only [h, if_true]
        rw [heq] at hstored
        exact absurd hstored (by simp)
      · unfold getOrCompute
        rw [hlk]
        simp only [h, if_false]
  rw [hsplit]
  unfold getOrCompute
  rw [lookup_dictInsert cache m ⟨now₁, computeFn m n₁⟩]
  simp only [httl, if_true]

/-- C2, witness: a concrete second call with a different count returns the
first call's stored result. -/
theorem cache_ignora_nlast_testigo :
    (getOrCompute computeDemo [] 0 (litU "b") 1).2.2 = true
    ∧ 100 - 0 < CACHE_TTL
    ∧ getOrCompute computeDemo ((getOrCompute computeDemo [] 0 (litU "b") 1).2.1)
        100 (litU "b") 2
        = ((getOrCompute computeDemo [] 0 (litU "b") 1).1,
           (getOrCompute computeDemo [] 0 (litU "b") 1).2.1, false) :=
  ⟨by decide, by decide,
   cache_ignora_nlast computeDemo [] 0 100 (litU "b") 1 2 (by decide) (by decide)⟩

/-- C1: contrary to the specification, a municipality matching zero series in
every table is answered with the ok envelope, not the warning envelope: the
aggregated dict always carries the four indicator keys, so the handler's
`if not datos` test never fires.  At the concrete all-empty listing the
handler returns ok with `n_series = 4` and four empty maps, and starting
from an empty cache the warning envelope is unreachable for every input. -/
theorem consulta_sin_coincidencias_ok :
    (consulta_municipio lOvacio dOvacio [] 0 (litU "Xy") 5).1
      = Respuesta.ok (litU "Xy") 4
          [("poblacion_municipio", ValorTabla.tabla []),
           ("indicadores_urbanos", ValorTabla.tabla []),
           ("hogares_vivienda", ValorTabla.tabla []),
           ("superficie_uso_suelo", ValorTabla.tabla [])]
    ∧ (∀ (listO : ListOracle) (dataO : DataOracle) (now : Nat) (m : List Nat) (n : Nat),
        esWarning (consulta_municipio listO dataO [] now m n).1 = false) := by
  constructor
  · decide
  · intro listO dataO now m n
    exact rfl

end INE
